import Mathlib

/-!
Verification development for the prediction-market ingestion / reconciliation /
live-prediction pipeline.

The JavaScript sources are shallowly embedded as executable Lean definitions:

* JS `number` arithmetic is modelled over the exact rationals `ℚ`; decimal
  literals of the source (`0.97`, `0.001`, `0.20`, ...) are taken at their
  decimal value.
* fixed-point chain values are kept as raw integers; `ethers.formatUnits(x, 8)`
  and `ethers.formatEther(x)` become exact division by `10^8` / `10^18`.
* Postgres tables are lists of row records; `INSERT ... ON CONFLICT ... DO
  NOTHING` is an insert-if-key-absent fold (Postgres applies DO NOTHING also to
  duplicates inside one multi-row insert), `ON CONFLICT ... DO UPDATE` is an
  in-place update.
* Taipei-local timestamp strings are represented by the underlying epoch
  timestamp (the rendering is injective and none of the proved properties
  inspects the text).
* effectful steps (chain RPC, the write transaction possibly failing) are
  oracles carried in an environment record.
-/

/-- Bet / round direction, the `"UP"` / `"DOWN"` strings of the source. -/
inductive Direction where
  | UP
  | DOWN
deriving DecidableEq, Repr

/-- Raw round data as returned by `getRoundData` (chain `rounds(epoch)` call):
prices in 8-decimal fixed point, amounts in 18-decimal fixed point. -/
structure RoundData where
  epoch : Nat
  startTimestamp : Int
  lockTimestamp : Int
  closeTimestamp : Int
  lockPriceRaw : Int
  closePriceRaw : Int
  totalAmountRaw : Int
  bullAmountRaw : Int
  bearAmountRaw : Int
deriving DecidableEq, Repr

/-- `parseFloat(ethers.formatUnits(x, 8))`: 8-decimal fixed point to number. -/
def fmtUnits8 (x : Int) : ℚ := (x : ℚ) / 10 ^ 8

/-- `parseFloat(ethers.formatEther(x))`: 18-decimal fixed point to number. -/
def fmtEther (x : Int) : ℚ := (x : ℚ) / 10 ^ 18

/-- One parsed `round` row (`parseRoundData` output / `round` table row).
The three `_time` fields carry the epoch timestamps whose Taipei rendering the
source stores. -/
structure ParsedRound where
  epoch : Nat
  start_time : Int
  lock_time : Int
  close_time : Int
  lock_price : ℚ
  close_price : ℚ
  result : Direction
  total_bet_amount : ℚ
  up_bet_amount : ℚ
  down_bet_amount : ℚ
  up_payout : ℚ
  down_payout : ℚ
deriving DecidableEq, Repr

/-- `parseRoundData` (gk_hisbet `parseRoundDataAction` / hisbet `parseRoundData`):
derives `result`, the bet totals and the payouts of one round. -/
def parseRoundData (rd : RoundData) : ParsedRound :=
  let lp := fmtUnits8 rd.lockPriceRaw
  let cp := fmtUnits8 rd.closePriceRaw
  let res := if cp > lp then Direction.UP else Direction.DOWN
  let bull := fmtEther rd.bullAmountRaw
  let bear := fmtEther rd.bearAmountRaw
  let tot := bull + bear
  let after := tot * 0.97
  { epoch := rd.epoch
    start_time := rd.startTimestamp
    lock_time := rd.lockTimestamp
    close_time := rd.closeTimestamp
    lock_price := lp
    close_price := cp
    result := res
    total_bet_amount := tot
    up_bet_amount := bull
    down_bet_amount := bear
    up_payout := if bull > 0 then after / bull else 0
    down_payout := if bear > 0 then after / bear else 0 }

/-- `validateRoundData` (gk_hisbet `validateRoundDataAction` / hisbet
`validateRoundDataFromChain`): the list of validation errors; the source throws
iff this list is non-empty.  JS falsiness of a zero timestamp is covered by the
`≤ 0` comparisons. -/
def validateRoundDataErrors (rd : RoundData) : List String :=
  let lp := fmtUnits8 rd.lockPriceRaw
  let cp := fmtUnits8 rd.closePriceRaw
  let t := fmtEther rd.totalAmountRaw
  let b := fmtEther rd.bullAmountRaw
  let a := fmtEther rd.bearAmountRaw
  (if rd.startTimestamp ≤ 0 then ["Missing start time"] else []) ++
  (if rd.lockTimestamp ≤ 0 then ["Missing lock time"] else []) ++
  (if rd.closeTimestamp ≤ 0 then ["Missing close time"] else []) ++
  (if rd.startTimestamp ≥ rd.lockTimestamp then ["Time logic error"] else []) ++
  (if rd.lockTimestamp ≥ rd.closeTimestamp then ["Time logic error"] else []) ++
  (if lp ≤ 0 ∨ lp < 50 ∨ lp > 5000 then ["lockPrice out of range"] else []) ++
  (if cp ≤ 0 ∨ cp < 50 ∨ cp > 5000 then ["closePrice out of range"] else []) ++
  (if lp > 0 ∧ cp > 0 ∧ |cp - lp| / lp > 0.20 then ["Price change > 20%"] else []) ++
  (if t < 0 ∨ b < 0 ∨ a < 0 then ["Negative amount"] else []) ++
  (if t = 0 ∧ b = 0 ∧ a = 0 then ["All amounts are zero"] else []) ++
  (if |t - (b + a)| > 0.001 then ["Total amount mismatch"] else [])

/-- The VALIDATE stage passes iff it produced no error. -/
def validateRoundDataOk (rd : RoundData) : Bool :=
  validateRoundDataErrors rd = []

/-- A hex digit, as matched by the source regex `[0-9a-fA-F]`. -/
def isHexDigitChar (c : Char) : Bool :=
  c.isDigit || (('a' ≤ c && c ≤ 'f') || ('A' ≤ c && c ≤ 'F'))

/-- `normalizeAddress`: trims, checks the `^0x[0-9a-fA-F]{40}$` shape and
lowercases; `none` models the thrown error of the source. -/
def normalizeAddress? (s : String) : Option String :=
  let t := s.trim
  if t.length = 42 && t.startsWith "0x" && (t.drop 2).all isHexDigitChar then
    some t.toLower
  else
    none

/-- The all-zero address rejected by the event validators. -/
def zeroAddress : String := "0x" ++ String.mk (List.replicate 40 '0')

/-- One decoded `BetBull` / `BetBear` event. -/
structure BetEvent where
  sender : String
  epochArg : Nat
  amountRaw : Int
  blockNumber : Nat
  txHash : String
deriving DecidableEq, Repr

/-- One decoded `Claim` event (`epochArg` is the bet epoch being claimed). -/
structure ClaimEvent where
  sender : String
  epochArg : Nat
  amountRaw : Int
  blockNumber : Nat
deriving DecidableEq, Repr

/-- The three event lists fetched by `fetchContractEvents`. -/
structure Events where
  betbull : List BetEvent
  betbear : List BetEvent
  claim : List ClaimEvent
deriving DecidableEq, Repr

/-- Per-event address/amount errors of `validateBetEvents` for one side. -/
def betEventErrors (tag : String) (es : List BetEvent) : List String :=
  (es.enum.map fun p =>
    (match normalizeAddress? p.2.sender with
     | none => [tag ++ "[" ++ toString p.1 ++ "] invalid address"]
     | some a => if a = zeroAddress then [tag ++ "[" ++ toString p.1 ++ "] zero address"] else []) ++
    (if p.2.amountRaw ≤ 0 then [tag ++ "[" ++ toString p.1 ++ "] invalid amount"] else [])).flatten

/-- `validateBetEvents` (gk_hisbet `validateBetEventsAction`): error list; the
source throws iff non-empty. -/
def validateBetEventsErrors (ev : Events) : List String :=
  (if ev.betbull = [] then ["Missing UP bets"] else []) ++
  (if ev.betbear = [] then ["Missing DOWN bets"] else []) ++
  betEventErrors "UP" ev.betbull ++
  betEventErrors "DOWN" ev.betbear

/-- `validateClaimEvents` (gk_hisbet `validateClaimEventsAction`): error list. -/
def validateClaimEventsErrors (ev : Events) (epoch : Nat) : List String :=
  (if ev.claim = [] then ["Missing Claim events"] else []) ++
  (ev.claim.enum.map fun p =>
    (match normalizeAddress? p.2.sender with
     | none => ["Claim[" ++ toString p.1 ++ "] invalid address"]
     | some a => if a = zeroAddress then ["Claim[" ++ toString p.1 ++ "] zero address"] else []) ++
    (if p.2.epochArg = 0 then ["Claim[" ++ toString p.1 ++ "] bet_epoch invalid"] else []) ++
    (if epoch ≤ p.2.epochArg then ["Claim[" ++ toString p.1 ++ "] epoch <= bet_epoch"] else []) ++
    (if p.2.amountRaw ≤ 0 then ["Claim[" ++ toString p.1 ++ "] amount invalid"] else [])).flatten

/-- One parsed bet (`parseBetEvents` output / `hisbet`-bound record before the
WIN/LOSS column is added). -/
structure Bet where
  epoch : Nat
  bet_time : Int
  wallet_address : String
  direction : Direction
  amount : ℚ
  block_number : Nat
  tx_hash : String
deriving DecidableEq, Repr

/-- `parseBetEvents`: maps each event to a bet record, looking block timestamps
up through `blockTs` (the per-batch memo of the source caches a pure lookup and
is observationally absorbed by it).  Address normalization cannot fail here in
the flow because `validateBetEvents` ran first; the impossible branch yields
`""` where the source would throw. -/
def parseBetEvents (blockTs : Nat → Int) (ev : Events) : List Bet :=
  let proc := fun (dir : Direction) (e : BetEvent) =>
    { epoch := e.epochArg
      bet_time := blockTs e.blockNumber
      wallet_address := (normalizeAddress? e.sender).getD ""
      direction := dir
      amount := fmtEther e.amountRaw
      block_number := e.blockNumber
      tx_hash := e.txHash.toLower : Bet }
  ev.betbull.map (proc Direction.UP) ++ ev.betbear.map (proc Direction.DOWN)

/-- One parsed claim (`parseClaimEvents` output / `claim` table row). -/
structure ClaimRow where
  epoch : Nat
  block_number : Nat
  wallet_address : String
  bet_epoch : Nat
  amount : ℚ
deriving DecidableEq, Repr

/-- `parseClaimEvents` (gk_hisbet) / `parseClaims` (hisbet): a direct map over
the fetched Claim events, one output entry per event. -/
def parseClaims (ev : Events) (epoch : Nat) : List ClaimRow :=
  ev.claim.map fun e =>
    { epoch := epoch
      block_number := e.blockNumber
      wallet_address := (normalizeAddress? e.sender).getD ""
      bet_epoch := e.epochArg
      amount := fmtEther e.amountRaw }

/-- The dedup key of the `claim` table: `(block_number, wallet_address, bet_epoch)`. -/
def claimKey (c : ClaimRow) : Nat × String × Nat :=
  (c.block_number, c.wallet_address, c.bet_epoch)

/-- One `multi_claim` table row. -/
structure MultiClaimRow where
  epoch : Nat
  wallet_address : String
  num_claimed_epochs : Nat
  total_amount : ℚ
deriving DecidableEq, Repr

/-- Accumulator entry of `detectMultiClaims`: wallet, distinct claimed bet
epochs (the JS `Set` in insertion order), summed amount. -/
def mcStep (acc : List (String × List Nat × ℚ)) (c : ClaimRow) :
    List (String × List Nat × ℚ) :=
  if acc.any (fun e => e.1 = c.wallet_address) then
    acc.map fun e =>
      if e.1 = c.wallet_address then
        (e.1, (if e.2.1.contains c.bet_epoch then e.2.1 else e.2.1 ++ [c.bet_epoch]),
         e.2.2 + c.amount)
      else e
  else
    acc ++ [(c.wallet_address, [c.bet_epoch], c.amount)]

/-- `detectMultiClaims`: wallets of the claim list whose distinct claimed
epochs reach 5 or whose claimed amount reaches 1. -/
def detectMultiClaims (claims : List ClaimRow) : List MultiClaimRow :=
  let ws := claims.foldl mcStep []
  (ws.filter fun e => 5 ≤ e.2.1.length ∨ 1 ≤ e.2.2).map fun e =>
    { epoch := (claims.head?.map (·.epoch)).getD 0
      wallet_address := e.1
      num_claimed_epochs := e.2.1.length
      total_amount := e.2.2 }

/-- The duplicate/missing tx-hash scan of `verifyRoundBetsStrict`, folding the
JS `Set` as a seen-list. -/
def txHashErrors (bets : List Bet) : List String :=
  (bets.foldl
    (fun acc b =>
      if b.tx_hash = "" then (acc.1, acc.2 ++ ["Missing tx_hash"])
      else if acc.1.contains b.tx_hash then (acc.1 ++ [b.tx_hash], acc.2 ++ ["Duplicate tx"])
      else (acc.1 ++ [b.tx_hash], acc.2))
    (([], []) : List String × List String)).2

/-- `verifyRoundBetsStrict` (VERIFY_TOTALS): recomputed sums and counts checked
against the parsed round; error list, throw iff non-empty. -/
def verifyRoundBetsStrictErrors (round : ParsedRound) (bets : List Bet) : List String :=
  let tot := (bets.map (·.amount)).sum
  let up := ((bets.filter (·.direction = Direction.UP)).map (·.amount)).sum
  let dn := ((bets.filter (·.direction = Direction.DOWN)).map (·.amount)).sum
  let uc := (bets.filter (·.direction = Direction.UP)).length
  let dc := (bets.filter (·.direction = Direction.DOWN)).length
  txHashErrors bets ++
  (if uc = 0 then ["UP count is zero"] else []) ++
  (if dc = 0 then ["DOWN count is zero"] else []) ++
  (if |tot - round.total_bet_amount| > 0.001 then ["Total amount mismatch"] else []) ++
  (if |up - round.up_bet_amount| > 0.001 then ["UP amount mismatch"] else []) ++
  (if |dn - round.down_bet_amount| > 0.001 then ["DOWN amount mismatch"] else [])

/-- One `hisbet` table row (a bet plus its WIN/LOSS result column). -/
structure HisbetRow where
  epoch : Nat
  bet_time : Int
  wallet_address : String
  bet_direction : Direction
  bet_amount : ℚ
  block_number : Nat
  tx_hash : String
  result : String
deriving DecidableEq, Repr

/-- One `realbet` table row (live bet, no result column). -/
structure RealbetRow where
  epoch : Nat
  bet_time : Int
  wallet_address : String
  bet_direction : Direction
  bet_amount : ℚ
  block_number : Nat
  tx_hash : String
deriving DecidableEq, Repr

/-- One `failed_epochs` row (`failed_at` timestamp not modelled; `retry_count`
has column default 0 on insert). -/
structure FailedRow where
  epoch : Nat
  error_message : String
  stage : String
  retry_count : Nat
deriving DecidableEq, Repr

/-- The relational store: one list per table. -/
structure DB where
  round : List ParsedRound
  hisbet : List HisbetRow
  claim : List ClaimRow
  multi_claim : List MultiClaimRow
  realbet : List RealbetRow
  finepoch : List Nat
  failed : List FailedRow
deriving DecidableEq, Repr

/-- The empty store. -/
def DB.empty : DB := ⟨[], [], [], [], [], [], []⟩

/-- `INSERT INTO hisbet ... ON CONFLICT (bet_time, tx_hash) DO NOTHING`. -/
def insertHisbet (tbl : List HisbetRow) (r : HisbetRow) : List HisbetRow :=
  if tbl.any (fun x => x.bet_time = r.bet_time ∧ x.tx_hash = r.tx_hash) then tbl else tbl ++ [r]

/-- `INSERT INTO claim ... ON CONFLICT (block_number, wallet_address, bet_epoch)
DO NOTHING`. -/
def insertClaim (tbl : List ClaimRow) (r : ClaimRow) : List ClaimRow :=
  if tbl.any (fun x => claimKey x = claimKey r) then tbl else tbl ++ [r]

/-- `INSERT INTO multi_claim ... ON CONFLICT (epoch, wallet_address) DO NOTHING`. -/
def insertMultiClaim (tbl : List MultiClaimRow) (r : MultiClaimRow) : List MultiClaimRow :=
  if tbl.any (fun x => x.epoch = r.epoch ∧ x.wallet_address = r.wallet_address) then tbl
  else tbl ++ [r]

/-- `INSERT INTO round ... ON CONFLICT (start_time, epoch) DO UPDATE SET ...`:
prices, result, totals and payouts are overwritten, the time columns kept. -/
def upsertRound (tbl : List ParsedRound) (r : ParsedRound) : List ParsedRound :=
  if tbl.any (fun x => x.start_time = r.start_time ∧ x.epoch = r.epoch) then
    tbl.map fun x =>
      if x.start_time = r.start_time ∧ x.epoch = r.epoch then
        { x with lock_price := r.lock_price, close_price := r.close_price,
                 result := r.result, total_bet_amount := r.total_bet_amount,
                 up_bet_amount := r.up_bet_amount, down_bet_amount := r.down_bet_amount,
                 up_payout := r.up_payout, down_payout := r.down_payout }
      else x
  else tbl ++ [r]

/-- A parsed bet as the `hisbet` row written by the transaction: the result
column is WIN iff the bet's direction matches the round result. -/
def betToHisbetRow (round : ParsedRound) (b : Bet) : HisbetRow :=
  { epoch := b.epoch, bet_time := b.bet_time, wallet_address := b.wallet_address,
    bet_direction := b.direction, bet_amount := b.amount,
    block_number := b.block_number, tx_hash := b.tx_hash,
    result := if b.direction = round.result then "WIN" else "LOSS" }

/-- `writeDataTransaction` success path: the atomic per-epoch transaction —
round upsert, bet/claim/multi-claim inserts with DO NOTHING, conditional
`realbet` prune (only when `now - close_time > 600`), finalized marker. -/
def writeDataTransaction (nowSec : Int) (round : ParsedRound) (bets : List Bet)
    (claims : List ClaimRow) (mcs : List MultiClaimRow) (db : DB) : DB :=
  let db1 := { db with round := upsertRound db.round round }
  let db2 := { db1 with hisbet := (bets.map (betToHisbetRow round)).foldl insertHisbet db1.hisbet }
  let db3 := { db2 with claim := claims.foldl insertClaim db2.claim }
  let db4 := { db3 with multi_claim := mcs.foldl insertMultiClaim db3.multi_claim }
  let db5 :=
    if nowSec - round.close_time > 600 then
      { db4 with realbet := db4.realbet.filter (fun r => r.epoch ≠ round.epoch) }
    else db4
  if db5.finepoch.contains round.epoch then db5
  else { db5 with finepoch := db5.finepoch ++ [round.epoch] }

/-- `verifyDatabaseWrite` (VERIFY_WRITE): round row present, hisbet count for
the epoch equals the parsed count, finalized marker present. -/
def verifyDatabaseWriteErrors (epoch : Nat) (bets : List Bet) (db : DB) : List String :=
  (if db.round.any (fun r => r.epoch = epoch) then [] else ["Round not found"]) ++
  (if (db.hisbet.filter (fun h => h.epoch = epoch)).length = bets.length then []
   else ["hisbet count mismatch"]) ++
  (if db.finepoch.contains epoch then [] else ["finepoch not found"])

/-- `logFailedEpoch`: upsert into `failed_epochs` — a fresh row keeps the
column default `retry_count = 0`, a conflicting row gets message/stage replaced
and `retry_count` incremented. -/
def logFailedEpoch (db : DB) (epoch : Nat) (msg stage : String) : DB :=
  if db.failed.any (fun f => f.epoch = epoch) then
    { db with failed := db.failed.map fun f =>
        if f.epoch = epoch then
          { f with error_message := msg.take 500, stage := stage,
                   retry_count := f.retry_count + 1 }
        else f }
  else
    { db with failed := db.failed ++ [⟨epoch, msg.take 500, stage, 0⟩] }

/-- `getFailCount`: `retry_count` of the failed-epoch row, 0 when absent. -/
def getFailCount (db : DB) (epoch : Nat) : Nat :=
  ((db.failed.find? (fun f => f.epoch = epoch)).map (·.retry_count)).getD 0

/-- `epochAlreadyDone`: finalized-epoch marker present. -/
def epochAlreadyDone (db : DB) (epoch : Nat) : Bool :=
  db.finepoch.contains epoch

/-- The `hisbet` rows of one epoch. -/
def betsFor (tbl : List HisbetRow) (e : Nat) : List HisbetRow :=
  tbl.filter (fun r => r.epoch = e)

/-- `HAVING COUNT(*) > 5`: an epoch qualifies as anchor material. -/
def epochQualifies (tbl : List HisbetRow) (e : Nat) : Bool :=
  5 < (betsFor tbl e).length

/-- `MIN(block_number)` over one epoch's bets (0 on an empty group, which the
`COUNT(*) > 5` guard excludes). -/
def minBlockOf (tbl : List HisbetRow) (e : Nat) : Nat :=
  match (betsFor tbl e).map (·.block_number) with
  | [] => 0
  | b :: bs => bs.foldl min b

/-- `MAX(block_number)` over one epoch's bets. -/
def lastBlockOf (tbl : List HisbetRow) (e : Nat) : Nat :=
  match (betsFor tbl e).map (·.block_number) with
  | [] => 0
  | b :: bs => bs.foldl max b

/-- The `last_block(e) - last_block(e-1)` differences of
`getBlocksPerEpoch(ref, 10)`: consecutive epoch pairs inside
`[ref - 10, ref]` where both epochs have more than 5 bets. -/
def blockDiffs (tbl : List HisbetRow) (ref : Nat) : List Int :=
  (List.range (ref + 1)).filterMap fun e =>
    if ref ≤ e + 9 ∧ 1 ≤ e ∧ epochQualifies tbl (e - 1) ∧ epochQualifies tbl e then
      some ((lastBlockOf tbl e : Int) - (lastBlockOf tbl (e - 1) : Int))
    else none

/-- `Math.max(...diffs)` of the source. -/
def maxListInt : List Int → Int
  | [] => 0
  | x :: xs => xs.foldl max x

/-- `BlockRangeCalculator.getBlocksPerEpoch`: the maximum per-epoch block
advance near the reference epoch, defaulting to 410 when no qualifying
consecutive pair exists. -/
def getBlocksPerEpoch (tbl : List HisbetRow) (ref : Nat) : Int :=
  match blockDiffs tbl ref with
  | [] => 410
  | ds => maxListInt ds

/-- The forward-anchor query: smallest epoch in `[e+1, e+5]` with more than 5
bets (`ORDER BY epoch ASC LIMIT 1`). -/
def forwardAnchor? (tbl : List HisbetRow) (e : Nat) : Option Nat :=
  (List.range' (e + 1) 5).find? (epochQualifies tbl)

/-- The backward-anchor query: largest epoch in `[e-5, e-1]` with more than 5
bets (`ORDER BY epoch DESC LIMIT 1`). -/
def backwardAnchor? (tbl : List HisbetRow) (e : Nat) : Option Nat :=
  ((List.range' (e - 5) 5).filter (fun f => f < e ∧ epochQualifies tbl f)).getLast?

/-- `BlockRangeCalculator.getBlockRangeForEpoch`: data-driven block range for a
target epoch; `none` models the thrown no-anchor error. -/
def getBlockRangeForEpoch (tbl : List HisbetRow) (e : Nat) : Option (Int × Int) :=
  match forwardAnchor? tbl e with
  | some fe =>
      let endBlock : Int := minBlockOf tbl fe
      let bpe := getBlocksPerEpoch tbl fe
      let gap : Int := (fe : Int) - (e : Int)
      some (endBlock - bpe * gap - 50, endBlock + 50)
  | none =>
      match backwardAnchor? tbl e with
      | some pe =>
          let prevLast : Int := lastBlockOf tbl pe
          let bpe := getBlocksPerEpoch tbl pe
          let gap : Int := (e : Int) - (pe : Int)
          some (prevLast - 50, prevLast + bpe * gap + 50)
      | none => none

/-- Environment oracles of one sync attempt: chain reads (`none` = RPC failure
after retries), the block-timestamp lookup used by PARSE, whether the write
transaction fails at commit (rolled back), and the wall clock. -/
structure SyncEnv where
  roundData : Option RoundData
  events : Option Events
  blockTs : Nat → Int
  writeTxFails : Bool
  nowSec : Int

/-- Result record of `gk_sync_epoch_flow`. -/
structure SyncResult where
  success : Bool
  reason : Option String
  error : Option String
deriving DecidableEq, Repr

/-- Mutable world of the sync: the store plus the set of held
`processing:epoch:E` locks (TTL expiry not modelled). -/
structure SysState where
  db : DB
  locks : List Nat
deriving DecidableEq, Repr

/-- The staged body of `gk_sync_epoch_flow` inside the lock: FETCH_ROUND,
FETCH_EVENTS (block range from the store), VALIDATE, PARSE, VERIFY_TOTALS,
WRITE_TX, VERIFY_WRITE.  Returns the first error (`some msg`) and the store as
it stands when the error is raised: errors before the transaction leave it
untouched, a transaction failure rolls back, a VERIFY_WRITE failure surfaces
after the transaction committed. -/
def syncEpochBody (env : SyncEnv) (epoch : Nat) (db : DB) : Option String × DB :=
  match env.roundData with
  | none => (some "fetch round failed", db)
  | some rd =>
    match getBlockRangeForEpoch db.hisbet epoch with
    | none => (some "no block range", db)
    | some _ =>
      match env.events with
      | none => (some "fetch events failed", db)
      | some ev =>
        if validateRoundDataErrors rd ≠ [] then
          (some ("validation failed: " ++ String.intercalate "; " (validateRoundDataErrors rd)), db)
        else if validateBetEventsErrors ev ≠ [] then
          (some ("bet validation failed: " ++ String.intercalate "; " (validateBetEventsErrors ev)), db)
        else if validateClaimEventsErrors ev epoch ≠ [] then
          (some ("Claim validation failed: " ++ String.intercalate "; " (validateClaimEventsErrors ev epoch)), db)
        else
          let round := parseRoundData rd
          let bets := parseBetEvents env.blockTs ev
          let claims := parseClaims ev epoch
          let mcs := detectMultiClaims claims
          if verifyRoundBetsStrictErrors round bets ≠ [] then
            (some ("amount verification failed: " ++
                   String.intercalate "; " (verifyRoundBetsStrictErrors round bets)), db)
          else if env.writeTxFails then
            (some "data transaction failed", db)
          else
            let db' := writeDataTransaction env.nowSec round bets claims mcs db
            if verifyDatabaseWriteErrors epoch bets db' ≠ [] then
              (some ("database verification failed: " ++
                     String.intercalate "; " (verifyDatabaseWriteErrors epoch bets db')), db')
            else (none, db')

/-- `gk_sync_epoch_flow`: the per-epoch sync state machine — finalized-marker
short-circuit, `processing:epoch:E` set-if-absent lock (conflict returns
`reason = "locked"`), the staged body, failure logging with stage `"sync"`, and
the lock release of the `finally` block. -/
def gk_sync_epoch_flow (env : SyncEnv) (epoch : Nat) (st : SysState) :
    SyncResult × SysState :=
  if epochAlreadyDone st.db epoch then
    ({ success := true, reason := none, error := none }, st)
  else if st.locks.contains epoch then
    ({ success := false, reason := some "locked", error := none }, st)
  else
    let locked := epoch :: st.locks
    let r := syncEpochBody env epoch st.db
    match r.1 with
    | none =>
        ({ success := true, reason := none, error := none },
         { db := r.2, locks := locked.erase epoch })
    | some msg =>
        ({ success := false, reason := none, error := some msg },
         { db := logFailedEpoch r.2 epoch msg "sync", locks := locked.erase epoch })

/-- `RETRY_MAX` default. -/
def RETRY_MAX : Nat := 3

/-- The per-epoch body of the forward worker loop `gk_up_line_flow`: skip past
the retry cap, run the sync, and on any non-success result (the JS
`result.error || result.reason` message) upsert a failed-epoch row with stage
`"upLine"`. -/
def upLineProcessEpoch (env : SyncEnv) (epoch : Nat) (st : SysState) : SysState :=
  if RETRY_MAX ≤ getFailCount st.db epoch then st
  else
    let (res, st') := gk_sync_epoch_flow env epoch st
    if res.success then st'
    else
      let msg := res.error.getD (res.reason.getD "")
      { st' with db := logFailedEpoch st'.db epoch msg "upLine" }

/-- The `LRUCache` of realbet.js: association list in recency order (head =
least recently used), with a capacity bound. -/
structure LRU where
  limit : Nat
  entries : List (Nat × Nat)
deriving DecidableEq, Repr

/-- `LRUCache.get`: the looked-up value, with the hit entry moved to the
most-recent end. -/
def LRU.get (c : LRU) (k : Nat) : Option Nat × LRU :=
  match c.entries.find? (fun e => e.1 = k) with
  | none => (none, c)
  | some e => (some e.2, { c with entries := c.entries.filter (fun x => x.1 ≠ k) ++ [e] })

/-- `LRUCache.set`: replace an existing key, otherwise evict the least-recent
entry when full, then append. -/
def LRU.set (c : LRU) (k v : Nat) : LRU :=
  let base :=
    if c.entries.any (fun e => e.1 = k) then c.entries.filter (fun e => e.1 ≠ k)
    else if c.limit ≤ c.entries.length then c.entries.drop 1
    else c.entries
  { c with entries := base ++ [(k, v)] }

/-- `getBlockTimestamp` of realbet.js.  `rpc` is the `provider.getBlock` call:
`none` = the call throws, `some none` = no block / no usable timestamp (JS also
treats a zero timestamp as falsy, so a cached or returned 0 falls through),
`some (some ts)` = success.  `nowSec` is `Math.floor(Date.now() / 1000)`.
Returns the timestamp and the updated cache — a total function: every failure
path lands on the wall clock. -/
def getBlockTimestamp (cache : LRU) (rpc : Option (Option Nat)) (nowSec : Nat)
    (blockNumber : Nat) : Nat × LRU :=
  match cache.get blockNumber with
  | (some v, c') =>
      if v ≠ 0 then (v, c')
      else
        match rpc with
        | some (some ts) => if ts ≠ 0 then (ts, c'.set blockNumber ts) else (nowSec, c')
        | _ => (nowSec, c')
  | (none, c') =>
      match rpc with
      | some (some ts) => if ts ≠ 0 then (ts, c'.set blockNumber ts) else (nowSec, c')
      | _ => (nowSec, c')

/-- One buffered stream message of the consumer: redis entry id plus the
decoded bet payload. -/
structure StreamMsg where
  id : Nat
  data : RealbetRow
deriving DecidableEq, Repr

/-- State touched by one `flushBatch` call: the `realbet` table, the set of
acknowledged entry ids, and the bets re-published on `analysis_channel`. -/
structure FlushState where
  realbet : List RealbetRow
  acked : List Nat
  analysisOut : List RealbetRow
deriving DecidableEq, Repr

/-- `INSERT INTO realbet ... ON CONFLICT (bet_time, tx_hash) DO NOTHING`. -/
def insertRealbet (tbl : List RealbetRow) (r : RealbetRow) : List RealbetRow :=
  if tbl.any (fun x => x.bet_time = r.bet_time ∧ x.tx_hash = r.tx_hash) then tbl else tbl ++ [r]

/-- Batch form of the realbet insert. -/
def insertRealbetBatch (tbl : List RealbetRow) (rs : List RealbetRow) : List RealbetRow :=
  rs.foldl insertRealbet tbl

/-- The observable steps of `flushBatch`, in program order. -/
inductive FlushAction where
  | beginTx
  | insertBatch (rows : List RealbetRow)
  | commitTx
  | rollbackTx
  | ackMsg (id : Nat)
  | publishAnalysis (bet : RealbetRow)
deriving DecidableEq, Repr

/-- The action trace of one `flushBatch` call: empty batch returns at once; a
failing transaction is rolled back with nothing acknowledged; a committed
transaction is followed first by the acknowledgements, then by the
`analysis_channel` publishes. -/
def flushBatchTrace (txFails : Bool) (batch : List StreamMsg) : List FlushAction :=
  if batch = [] then []
  else if txFails then
    [FlushAction.beginTx, FlushAction.insertBatch (batch.map (·.data)), FlushAction.rollbackTx]
  else
    [FlushAction.beginTx, FlushAction.insertBatch (batch.map (·.data)), FlushAction.commitTx] ++
    batch.map (fun m => FlushAction.ackMsg m.id) ++
    batch.map (fun m => FlushAction.publishAnalysis m.data)

/-- State effect of one `flushBatch` call: on commit the batch is inserted
(duplicates absorbed by the key constraint), every message acknowledged and
every bet re-published; on failure the state is untouched. -/
def flushBatch (txFails : Bool) (batch : List StreamMsg) (st : FlushState) : FlushState :=
  if batch = [] then st
  else if txFails then st
  else
    { realbet := insertRealbetBatch st.realbet (batch.map (·.data))
      acked := st.acked ++ batch.map (·.id)
      analysisOut := st.analysisOut ++ batch.map (·.data) }

/-- One historical-round feature row of the last-5 trend query (`result IS NOT
NULL` filtered): `upPart` is the SQL `up_ratio` column (`none` models the SQL
NULL / JS NaN of a zero total), `price_change` the relative price move. -/
structure HistRow where
  result : Direction
  upPart : Option ℚ
  total_bet_amount : ℚ
  price_change : ℚ
deriving DecidableEq, Repr

/-- The current-round object handed to `calculateMomentumPrediction`. -/
structure CurRound where
  up_bet_amount : ℚ
  total_bet_amount : ℚ
deriving DecidableEq, Repr

/-- `calculateVolatility` squared (the population variance of the values):
the source compares `Math.sqrt(variance) < 0.01`; with `variance ≥ 0` that is
exactly `variance < 0.01²`, which keeps the definition executable over `ℚ`. -/
def calcVarianceQ (vs : List ℚ) : ℚ :=
  if vs.length < 2 then 0
  else
    let mean := vs.sum / vs.length
    (vs.map (fun v => (v - mean) ^ 2)).sum / vs.length

/-- The `(upScore, downScore)` accumulators of `calculateMomentumPrediction`:
streak feature, flow-deviation feature, volume feature and price-breakout
feature, in source order. -/
def calculateMomentumScores (hist : List HistRow) (cur : CurRound) : Int × Int :=
  let recent := (hist.map (·.result)).take 3
  let upStreak := (recent.filter (· = Direction.UP)).length
  let downStreak := (recent.filter (· = Direction.DOWN)).length
  let s0 : Int × Int := (0, 0)
  let s1 :=
    if 2 ≤ upStreak then
      if 3 ≤ upStreak then (s0.1, s0.2 + 2) else (s0.1 + 1, s0.2)
    else s0
  let s2 :=
    if 2 ≤ downStreak then
      if 3 ≤ downStreak then (s1.1 + 2, s1.2) else (s1.1, s1.2 + 1)
    else s1
  let curUpPart := cur.up_bet_amount / cur.total_bet_amount
  let histParts := hist.filterMap (·.upPart)
  let s3 :=
    match histParts with
    | [] => s2
    | _ =>
      let avg := histParts.sum / histParts.length
      let diff := curUpPart - avg
      if |diff| > 0.1 then
        if diff > 0 then (s2.1 + 2, s2.2) else (s2.1, s2.2 + 2)
      else s2
  let vols := (hist.map (·.total_bet_amount)).filter (fun v => 0 < v)
  let s4 :=
    match vols with
    | [] => s3
    | _ =>
      let avgVol := vols.sum / vols.length
      let volMult := cur.total_bet_amount / avgVol
      if volMult > 1.5 then
        if curUpPart > 0.6 then (s3.1 + 1, s3.2)
        else if curUpPart < 0.4 then (s3.1, s3.2 + 1)
        else s3
      else s3
  let pcs := hist.map (·.price_change)
  if 2 ≤ pcs.length then
    if calcVarianceQ pcs < 0.0001 then
      let lastPc := pcs.headI
      if |lastPc| > 0.02 then
        if lastPc > 0 then (s4.1 + 2, s4.2) else (s4.1, s4.2 + 2)
      else s4
    else s4
  else s4

/-- `calculateMomentumPrediction`: sign of the score difference, tie broken by
the current flow share (`currentUpRatio > 0.5`). -/
def calculateMomentumPrediction (hist : List HistRow) (cur : CurRound) : Direction :=
  let s := calculateMomentumScores hist cur
  if s.1 - s.2 = 0 then
    if cur.up_bet_amount / cur.total_bet_amount > 0.5 then Direction.UP else Direction.DOWN
  else if s.1 - s.2 > 0 then Direction.UP
  else Direction.DOWN

/-- The in-flow prediction of `maybePublishLivePrediction`: momentum on at
least 3 historical rows, otherwise the flow-share fallback (`upRatio ≥ 0.5`). -/
def livePrediction (hist : List HistRow) (cur : CurRound) (upPart : ℚ) : Direction :=
  if 3 ≤ hist.length then calculateMomentumPrediction hist cur
  else if upPart ≥ 0.5 then Direction.UP
  else Direction.DOWN

/-- Volume buckets of `getVolumeBucket` (`DYNAMIC_CONFIG.volumeBuckets = [1.2, 1.5]`). -/
inductive Bucket where
  | base
  | mid
  | high
deriving DecidableEq, Repr

/-- `getVolumeBucket`. -/
def getVolumeBucket (volMult : ℚ) : Bucket :=
  if volMult ≥ 1.5 then Bucket.high
  else if volMult ≥ 1.2 then Bucket.mid
  else Bucket.base

/-- Confidence levels of the emitted prediction. -/
inductive Conf where
  | low
  | medium
  | high
deriving DecidableEq, Repr

/-- One `(t, upRatio, total)` point of the aggregator's bounded series. -/
structure SeriesPt where
  t : Int
  upPart : ℚ
  total : ℚ
deriving DecidableEq, Repr

/-- `computeSlope`: upRatio change per second over the points of the last 8
seconds (0 with fewer than two points). -/
def computeSlope (series : List SeriesPt) (nowMs : Int) : ℚ :=
  let pts := series.filter (fun p => nowMs - 8000 ≤ p.t)
  match pts with
  | [] => 0
  | [_] => 0
  | f :: rest =>
    let l := rest.getLastD f
    let dt : ℚ := max 1 (((l.t - f.t : Int) : ℚ) / 1000)
    (l.upPart - f.upPart) / dt

/-- The in-memory `liveAgg` state of the prediction aggregator. -/
structure LiveAgg where
  epoch : Option Nat
  up : ℚ
  down : ℚ
  total : ℚ
  lastPublishTs : Int
  lastUpPart : Option ℚ
  lastVolBucket : Option Bucket
  version : Nat
  histRows : List HistRow
  avgHistUpPart : Option ℚ
  avgHistVolume : Option ℚ
  series : List SeriesPt
deriving DecidableEq, Repr

/-- The prediction record published on `live_predictions` (display rounding of
the feature numbers omitted). -/
structure Pub where
  epoch : Nat
  version : Nat
  final : Bool
  prediction : Direction
  confidence : Conf
  score : Nat
  upPart : ℚ
  upPartDiff : ℚ
  volMult : ℚ
  slope : ℚ
deriving DecidableEq, Repr

/-- `DYNAMIC_CONFIG.publishIntervalMs`. -/
def publishIntervalMs : Int := 3000

/-- `const upRatio = liveAgg.total > 0 ? liveAgg.up / liveAgg.total : 0.5`. -/
def upPartOf (st : LiveAgg) : ℚ :=
  if st.total > 0 then st.up / st.total else 0.5

/-- The series after the `(now, upRatio, total)` push, oldest point shifted
out beyond 50 entries. -/
def seriesAfterPush (st : LiveAgg) (now : Int) : List SeriesPt :=
  let pushed := st.series ++ [⟨now, upPartOf st, st.total⟩]
  if 50 < pushed.length then pushed.drop 1 else pushed

/-- `const volumeRatio = (avgHistVolume && avgHistVolume > 0) ? total / avgHistVolume : 0`. -/
def volMultOf (st : LiveAgg) : ℚ :=
  match st.avgHistVolume with
  | some v => if v > 0 then st.total / v else 0
  | none => 0

/-- The volume bucket of the current state. -/
def bucketOf (st : LiveAgg) : Bucket :=
  getVolumeBucket (volMultOf st)

/-- `crossedMid`: the up-ratio crossed 0.5 since the last emission. -/
def crossedMidOf (st : LiveAgg) : Bool :=
  match st.lastUpPart with
  | none => false
  | some lu =>
      decide ((lu < 0.5 ∧ upPartOf st ≥ 0.5) ∨ (lu > 0.5 ∧ upPartOf st ≤ 0.5))

/-- `movedEnough`: the up-ratio moved at least `minUpRatioDelta = 0.03`. -/
def movedEnoughOf (st : LiveAgg) : Bool :=
  match st.lastUpPart with
  | none => true
  | some lu => decide (|upPartOf st - lu| ≥ 0.03)

/-- `volumeChanged`: the volume bucket differs from the last emitted one. -/
def volumeChangedOf (st : LiveAgg) : Bool :=
  match st.lastVolBucket with
  | none => true
  | some b => decide (bucketOf st ≠ b)

/-- `const upDiff = upRatio - (avgHistUpRatio ?? 0.5)`. -/
def upDiffOf (st : LiveAgg) : ℚ :=
  upPartOf st - st.avgHistUpPart.getD 0.5

/-- The slope over the post-push series (the source pushes before reading). -/
def slopeOf (st : LiveAgg) (now : Int) : ℚ :=
  computeSlope (seriesAfterPush st now) now

/-- The confidence score: `+2` flow deviation, `+2 / +1` volume, `+1` slope. -/
def scoreOf (st : LiveAgg) (now : Int) : Nat :=
  (if |upDiffOf st| > 0.1 then 2 else 0) +
  (if volMultOf st ≥ 1.5 then 2 else if volMultOf st ≥ 1.2 then 1 else 0) +
  (if |slopeOf st now| > 0.04 then 1 else 0)

/-- Confidence: `high` from score ≥ 3, downgraded on thin volume, lifted from
`low` on the final revision. -/
def confOf (st : LiveAgg) (now : Int) (finalFlag : Bool) : Conf :=
  let c0 : Conf := if 3 ≤ scoreOf st now then Conf.high else Conf.medium
  let c1 := if st.total < st.avgHistVolume.getD 0 * 0.2 ∧ c0 = Conf.high
            then Conf.medium else c0
  if finalFlag ∧ c1 = Conf.low then Conf.medium else c1

/-- The emitted prediction record. -/
def pubOf (st : LiveAgg) (now : Int) (finalFlag : Bool) (ep : Nat) : Pub :=
  { epoch := ep, version := st.version + 1, final := finalFlag,
    prediction := livePrediction st.histRows
      { up_bet_amount := st.up, total_bet_amount := st.total } (upPartOf st),
    confidence := confOf st now finalFlag, score := scoreOf st now,
    upPart := upPartOf st, upPartDiff := upDiffOf st,
    volMult := volMultOf st, slope := slopeOf st now }

/-- The aggregator state after a publish. -/
def postPublishState (st : LiveAgg) (now : Int) : LiveAgg :=
  { st with series := seriesAfterPush st now, version := st.version + 1,
            lastPublishTs := now, lastUpPart := some (upPartOf st),
            lastVolBucket := some (bucketOf st) }

/-- The body of `maybePublishLivePrediction` once an epoch is active: the
zero-total early return, the 3-second rate limit (bypassed by `force`), the
three emission conditions, and the publish (the JS `const` locals are the
named definitions above). -/
def maybePublishCore (st : LiveAgg) (now : Int) (force finalFlag : Bool)
    (ep : Nat) : Option Pub × LiveAgg :=
  if st.total ≤ 0 then (none, st)
  else if ¬force ∧ now - st.lastPublishTs < publishIntervalMs then (none, st)
  else if !force && !finalFlag && !movedEnoughOf st && !crossedMidOf st
          && !volumeChangedOf st then
    (none, { st with series := seriesAfterPush st now })
  else
    (some (pubOf st now finalFlag ep), postPublishState st now)

/-- `maybePublishLivePrediction`: the emission decision and record
construction of the aggregator.  Returns the published record (if any) and
the updated state. -/
def maybePublishLivePrediction (st : LiveAgg) (now : Int) (force finalFlag : Bool) :
    Option Pub × LiveAgg :=
  match st.epoch with
  | none => (none, st)
  | some ep => maybePublishCore st now force finalFlag ep

/-- The timer delay computed by `scheduleFinalPrediction`:
`Math.max(0, lockMs - now - finalAdvanceMs)`; delays under 500 ms fall into
the immediate 500 ms re-fire branch of the source. -/
def scheduleFinalDelay (lockMs now finalAdvanceMs : Int) : Int :=
  max 0 (lockMs - now - finalAdvanceMs)

/-- A happy-path round: epoch 419131, prices 250 → 252.5 (8-dec fixed point),
amounts 3 + 2 = 5 BNB (18-dec fixed point). -/
def rdHappy : RoundData :=
  { epoch := 419131, startTimestamp := 1700000000, lockTimestamp := 1700000300,
    closeTimestamp := 1700000600, lockPriceRaw := 25000000000,
    closePriceRaw := 25250000000, totalAmountRaw := 5 * 10 ^ 18,
    bullAmountRaw := 3 * 10 ^ 18, bearAmountRaw := 2 * 10 ^ 18 }

/-- A round whose lock price sits exactly on the lower plausibility bound 50
(close 55, a 10 % move). -/
def rdBound : RoundData :=
  { epoch := 419132, startTimestamp := 1700000000, lockTimestamp := 1700000300,
    closeTimestamp := 1700000600, lockPriceRaw := 5000000000,
    closePriceRaw := 5500000000, totalAmountRaw := 5 * 10 ^ 18,
    bullAmountRaw := 3 * 10 ^ 18, bearAmountRaw := 2 * 10 ^ 18 }

/-- Two distinct Claim events (different amounts) sharing
`(block_number, sender, bet_epoch)`. -/
def evDup : Events :=
  { betbull := [], betbear := [],
    claim := [⟨"0x00000000000000000000000000000000000000aa", 7, 10 ^ 18, 900⟩,
              ⟨"0x00000000000000000000000000000000000000aa", 7, 2 * 10 ^ 18, 900⟩] }

/-- Six stored bets of epoch 11 at blocks 1000–1005 (a qualifying forward
anchor for epoch 10). -/
def tblC6 : List HisbetRow :=
  (List.range 6).map fun i =>
    { epoch := 11, bet_time := 0, wallet_address := "w", bet_direction := Direction.UP,
      bet_amount := 1, block_number := 1000 + i, tx_hash := toString i, result := "WIN" }

/-- A store whose finalized-epoch marker for epoch 5 is present. -/
def stDone : SysState := ⟨{ DB.empty with finepoch := [5] }, []⟩

/-- A world in which another actor holds `processing:epoch:7`. -/
def stLockedC2 : SysState := ⟨DB.empty, [7]⟩

/-- An idle oracle environment (every chain read fails, clock at 0). -/
def envIdle : SyncEnv :=
  { roundData := none, events := none, blockTs := fun _ => 0,
    writeTxFails := false, nowSec := 0 }

/-- Three finished DOWN rounds with flat features: streak reversal gives
`up += 2`, the price breakout gives `down += 2` — a tied score. -/
def histTie : List HistRow :=
  [⟨Direction.DOWN, some (1/2), 2, -3/100⟩,
   ⟨Direction.DOWN, some (1/2), 2, -3/100⟩,
   ⟨Direction.DOWN, some (1/2), 2, -3/100⟩]

/-- A current round split exactly 50 / 50. -/
def curTie : CurRound := ⟨1, 2⟩

/-- Aggregator state of an epoch with zero bets aggregated. -/
def aggZero : LiveAgg :=
  ⟨some 1, 0, 0, 0, 0, none, none, 0, [], none, none, []⟩

/-- Aggregator state of an epoch with one 1-BNB UP bet aggregated. -/
def aggOne : LiveAgg :=
  ⟨some 2, 1, 0, 1, 0, none, none, 0, [], none, none, []⟩

/-- The empty live-listener block-timestamp cache (capacity 1000). -/
def cacheEmpty : LRU := ⟨1000, []⟩

/-- A one-element consumer batch. -/
def batchOne : List StreamMsg :=
  [⟨41, ⟨419131, 1700000100, "0x00000000000000000000000000000000000000aa",
        Direction.UP, 1/10, 62000000, "0xdeadbeef"⟩⟩]

/-- An empty flush state. -/
def flushStart : FlushState := ⟨[], [], []⟩

/-- C1.  For every chain round with both prices set, PARSE derives
`result = UP` exactly when `close_price > lock_price` (DOWN otherwise,
including the equal-price case), and `up_payout = 0.97 · total / up` when
`up > 0` and 0 when `up = 0`, symmetrically for `down_payout`, where `total`
is the sum of the up and down amounts. -/
theorem parse_round_result_and_payouts (rd : RoundData)
    (hl : 0 < fmtUnits8 rd.lockPriceRaw) (hc : 0 < fmtUnits8 rd.closePriceRaw) :
    ((parseRoundData rd).result = Direction.UP ↔
        fmtUnits8 rd.lockPriceRaw < fmtUnits8 rd.closePriceRaw) ∧
    ((parseRoundData rd).result = Direction.DOWN ↔
        fmtUnits8 rd.closePriceRaw ≤ fmtUnits8 rd.lockPriceRaw) ∧
    (parseRoundData rd).total_bet_amount =
        fmtEther rd.bullAmountRaw + fmtEther rd.bearAmountRaw ∧
    (parseRoundData rd).up_payout =
      (if 0 < fmtEther rd.bullAmountRaw then
          0.97 * (parseRoundData rd).total_bet_amount / fmtEther rd.bullAmountRaw
        else 0) ∧
    (parseRoundData rd).down_payout =
      (if 0 < fmtEther rd.bearAmountRaw then
          0.97 * (parseRoundData rd).total_bet_amount / fmtEther rd.bearAmountRaw
        else 0) := by
  refine ⟨?_, ?_, rfl, ?_, ?_⟩
  · show (if fmtUnits8 rd.closePriceRaw > fmtUnits8 rd.lockPriceRaw
          then Direction.UP else Direction.DOWN) = Direction.UP ↔ _
    split_ifs with h
    · simp [h]
    · simp [h]
  · show (if fmtUnits8 rd.closePriceRaw > fmtUnits8 rd.lockPriceRaw
          then Direction.UP else Direction.DOWN) = Direction.DOWN ↔ _
    split_ifs with h
    · simp [not_le.mpr h]
    · simp [not_lt.mp h]
  · show (if fmtEther rd.bullAmountRaw > 0 then _ else 0) = _
    rw [show (parseRoundData rd).total_bet_amount =
        fmtEther rd.bullAmountRaw + fmtEther rd.bearAmountRaw from rfl]
    split_ifs with h
    · ring
    · rfl
  · show (if fmtEther rd.bearAmountRaw > 0 then _ else 0) = _
    rw [show (parseRoundData rd).total_bet_amount =
        fmtEther rd.bullAmountRaw + fmtEther rd.bearAmountRaw from rfl]
    split_ifs with h
    · ring
    · rfl

/-- C1 witness: the theorem applied to the happy-path round. -/
theorem parse_round_result_and_payouts_witness :
    ((parseRoundData rdHappy).result = Direction.UP ↔
        fmtUnits8 rdHappy.lockPriceRaw < fmtUnits8 rdHappy.closePriceRaw) ∧
    ((parseRoundData rdHappy).result = Direction.DOWN ↔
        fmtUnits8 rdHappy.closePriceRaw ≤ fmtUnits8 rdHappy.lockPriceRaw) ∧
    (parseRoundData rdHappy).total_bet_amount =
        fmtEther rdHappy.bullAmountRaw + fmtEther rdHappy.bearAmountRaw ∧
    (parseRoundData rdHappy).up_payout =
      (if 0 < fmtEther rdHappy.bullAmountRaw then
          0.97 * (parseRoundData rdHappy).total_bet_amount / fmtEther rdHappy.bullAmountRaw
        else 0) ∧
    (parseRoundData rdHappy).down_payout =
      (if 0 < fmtEther rdHappy.bearAmountRaw then
          0.97 * (parseRoundData rdHappy).total_bet_amount / fmtEther rdHappy.bearAmountRaw
        else 0) :=
  parse_round_result_and_payouts rdHappy (by norm_num [fmtUnits8, rdHappy])
    (by norm_num [fmtUnits8, rdHappy])

/-- A singleton-or-empty error component is empty exactly when its guard is
false. -/
theorem iteSingletonEqNil {c : Prop} [Decidable c] {s : String}
    (h : (if c then [s] else []) = ([] : List String)) : ¬c := by
  intro hc
  rw [if_pos hc] at h
  exact List.cons_ne_nil _ _ h

/-- C4 counterexample: a round whose lock price equals the bound 50 (and whose
relative move is 10 %) passes VALIDATE, although the claim says a price equal
to a bound is rejected. -/
theorem validate_accepts_boundary_price :
    validateRoundDataOk rdBound = true ∧ fmtUnits8 rdBound.lockPriceRaw = 50 := by
  have h : validateRoundDataErrors rdBound = [] := by
    rw [validateRoundDataErrors]
    norm_num [rdBound, fmtUnits8, fmtEther, abs_of_pos, sub_self, abs_zero]
  constructor
  · simp [validateRoundDataOk, h]
  · norm_num [fmtUnits8, rdBound]

/-- C4 (amended).  VALIDATE passes only if each price lies in the closed
interval `[50, 5000]` (prices above 5000 — in particular between 5000 and
10000 — or below 50 are rejected; a price exactly on a bound is accepted) and
the relative move satisfies `|close − lock| / lock ≤ 0.20`. -/
theorem validate_prices_closed_interval (rd : RoundData)
    (h : validateRoundDataOk rd = true) :
    50 ≤ fmtUnits8 rd.lockPriceRaw ∧ fmtUnits8 rd.lockPriceRaw ≤ 5000 ∧
    50 ≤ fmtUnits8 rd.closePriceRaw ∧ fmtUnits8 rd.closePriceRaw ≤ 5000 ∧
    |fmtUnits8 rd.closePriceRaw - fmtUnits8 rd.lockPriceRaw| /
        fmtUnits8 rd.lockPriceRaw ≤ 0.20 := by
  have h0 : validateRoundDataErrors rd = [] := by
    simpa [validateRoundDataOk] using h
  rw [validateRoundDataErrors] at h0
  simp only [List.append_eq_nil, and_assoc] at h0
  obtain ⟨-, -, -, -, -, hlp, hcp, hchg, -, -, -⟩ := h0
  have hl := iteSingletonEqNil hlp
  have hc := iteSingletonEqNil hcp
  have hg := iteSingletonEqNil hchg
  push_neg at hl hc hg
  refine ⟨hl.2.1, hl.2.2, hc.2.1, hc.2.2, ?_⟩
  have hlpos : (0 : ℚ) < fmtUnits8 rd.lockPriceRaw := lt_of_lt_of_le (by norm_num) hl.2.1
  have hcpos : (0 : ℚ) < fmtUnits8 rd.closePriceRaw := lt_of_lt_of_le (by norm_num) hc.2.1
  exact hg hlpos hcpos

/-- C4 witness: the theorem applied to the happy-path round. -/
theorem validate_prices_closed_interval_witness :
    50 ≤ fmtUnits8 rdHappy.lockPriceRaw ∧ fmtUnits8 rdHappy.lockPriceRaw ≤ 5000 ∧
    50 ≤ fmtUnits8 rdHappy.closePriceRaw ∧ fmtUnits8 rdHappy.closePriceRaw ≤ 5000 ∧
    |fmtUnits8 rdHappy.closePriceRaw - fmtUnits8 rdHappy.lockPriceRaw| /
        fmtUnits8 rdHappy.lockPriceRaw ≤ 0.20 :=
  validate_prices_closed_interval rdHappy (by
    have h : validateRoundDataErrors rdHappy = [] := by
      rw [validateRoundDataErrors]
      norm_num [rdHappy, fmtUnits8, fmtEther, abs_of_pos, sub_self, abs_zero]
    simp [validateRoundDataOk, h])

/-- C10.  The live listener's block-timestamp lookup is total: on a cache miss
(including a falsy cached 0), a `getBlock` call that throws (`rpc = none`),
returns no block (`some none`) or a falsy zero timestamp yields the current
wall-clock seconds instead of an error, so building a live bet record never
fails for lack of a block timestamp. -/
theorem getBlockTimestamp_fallback_now (cache : LRU) (rpc : Option (Option Nat))
    (nowSec bn : Nat)
    (hmiss : (cache.get bn).1 = none)
    (hrpc : rpc = none ∨ rpc = some none ∨ rpc = some (some 0)) :
    (getBlockTimestamp cache rpc nowSec bn).1 = nowSec := by
  rw [getBlockTimestamp]
  rcases hc : cache.get bn with ⟨o, c⟩
  rw [hc] at hmiss
  simp only at hmiss
  subst hmiss
  rcases hrpc with h | h | h <;> rw [h] <;> simp

/-- C10 witness: empty cache, throwing RPC. -/
theorem getBlockTimestamp_fallback_now_witness :
    (getBlockTimestamp cacheEmpty none 1234 77).1 = 1234 :=
  getBlockTimestamp_fallback_now cacheEmpty none 1234 77 (by rfl) (Or.inl rfl)

/-- A realbet insert with the `(bet_time, tx_hash)` conflict rule preserves
key-uniqueness of the table. -/
theorem insertRealbet_pairwise (tbl : List RealbetRow) (r : RealbetRow)
    (h : tbl.Pairwise fun a b => ¬(a.bet_time = b.bet_time ∧ a.tx_hash = b.tx_hash)) :
    (insertRealbet tbl r).Pairwise
      fun a b => ¬(a.bet_time = b.bet_time ∧ a.tx_hash = b.tx_hash) := by
  rw [insertRealbet]
  split
  · exact h
  · next hany =>
    rw [List.pairwise_append]
    refine ⟨h, List.pairwise_singleton _ _, ?_⟩
    intro a ha b hb
    rw [List.mem_singleton] at hb
    subst hb
    intro hk
    exact hany (List.any_eq_true.mpr ⟨a, ha, by simp [hk.1, hk.2]⟩)

/-- Batch form of `insertRealbet_pairwise`. -/
theorem insertRealbetBatch_pairwise (tbl : List RealbetRow) (rs : List RealbetRow)
    (h : tbl.Pairwise fun a b => ¬(a.bet_time = b.bet_time ∧ a.tx_hash = b.tx_hash)) :
    (insertRealbetBatch tbl rs).Pairwise
      fun a b => ¬(a.bet_time = b.bet_time ∧ a.tx_hash = b.tx_hash) := by
  induction rs generalizing tbl with
  | nil => exact h
  | cons r rs ih =>
      rw [insertRealbetBatch, List.foldl_cons]
      exact ih _ (insertRealbet_pairwise tbl r h)

/-- C3.  One buffer-consumer flush: all bets of the batch go into the live
table in one transaction with `(bet_time, tx_hash) DO NOTHING`; the
acknowledgements all come after the commit and the `analysis_channel`
re-publishes after the acknowledgements; a failed transaction acknowledges
nothing (the buffer redelivers) and leaves the state unchanged; and the
key-uniqueness of the live table is preserved by the insert. -/
theorem flushBatch_commit_then_ack_then_publish (batch : List StreamMsg)
    (st : FlushState) (hne : batch ≠ []) :
    flushBatchTrace false batch =
      [FlushAction.beginTx, FlushAction.insertBatch (batch.map (·.data)),
       FlushAction.commitTx] ++
      batch.map (fun m => FlushAction.ackMsg m.id) ++
      batch.map (fun m => FlushAction.publishAnalysis m.data) ∧
    flushBatch false batch st =
      { realbet := insertRealbetBatch st.realbet (batch.map (·.data))
        acked := st.acked ++ batch.map (·.id)
        analysisOut := st.analysisOut ++ batch.map (·.data) } ∧
    flushBatch true batch st = st ∧
    (st.realbet.Pairwise
        (fun a b => ¬(a.bet_time = b.bet_time ∧ a.tx_hash = b.tx_hash)) →
      (flushBatch false batch st).realbet.Pairwise
        (fun a b => ¬(a.bet_time = b.bet_time ∧ a.tx_hash = b.tx_hash))) := by
  refine ⟨?_, ?_, ?_, ?_⟩
  · rw [flushBatchTrace, if_neg hne, if_neg (by simp)]
  · rw [flushBatch, if_neg hne, if_neg (by simp)]
  · rw [flushBatch]
    split
    · rfl
    · rfl
  · intro hp
    rw [flushBatch, if_neg hne, if_neg (by simp)]
    exact insertRealbetBatch_pairwise st.realbet (batch.map (·.data)) hp

/-- C3 witness: the theorem applied to a singleton batch on the empty state. -/
theorem flushBatch_commit_then_ack_then_publish_witness :
    flushBatchTrace false batchOne =
      [FlushAction.beginTx, FlushAction.insertBatch (batchOne.map (·.data)),
       FlushAction.commitTx] ++
      batchOne.map (fun m => FlushAction.ackMsg m.id) ++
      batchOne.map (fun m => FlushAction.publishAnalysis m.data) ∧
    flushBatch false batchOne flushStart =
      { realbet := insertRealbetBatch flushStart.realbet (batchOne.map (·.data))
        acked := flushStart.acked ++ batchOne.map (·.id)
        analysisOut := flushStart.analysisOut ++ batchOne.map (·.data) } ∧
    flushBatch true batchOne flushStart = flushStart ∧
    (flushStart.realbet.Pairwise
        (fun a b => ¬(a.bet_time = b.bet_time ∧ a.tx_hash = b.tx_hash)) →
      (flushBatch false batchOne flushStart).realbet.Pairwise
        (fun a b => ¬(a.bet_time = b.bet_time ∧ a.tx_hash = b.tx_hash))) :=
  flushBatch_commit_then_ack_then_publish batchOne flushStart (by simp [batchOne])

/-- C9.  Running the per-epoch sync on an epoch whose finalized-epoch marker
is present returns success at once: no lock is taken, no stage runs, no table
changes, no error — the whole world is left untouched. -/
theorem sync_already_done_noop (env : SyncEnv) (epoch : Nat) (st : SysState)
    (h : epochAlreadyDone st.db epoch = true) :
    gk_sync_epoch_flow env epoch st =
      ({ success := true, reason := none, error := none }, st) := by
  rw [gk_sync_epoch_flow, if_pos h]

/-- C9 witness: re-running the sync on finalized epoch 5. -/
theorem sync_already_done_noop_witness :
    gk_sync_epoch_flow envIdle 5 stDone =
      ({ success := true, reason := none, error := none }, stDone) :=
  sync_already_done_noop envIdle 5 stDone (by rfl)

/-- C2 counterexample: epoch 7 is locked by another actor and has no failure
history; the forward worker's per-epoch body nonetheless creates a
failed-epochs row (with stage `"upLine"`) for epoch 7 — contradicting the
claim that no failed-epoch record is created for a lock conflict. -/
theorem upline_locked_creates_failed_record :
    stLockedC2.db.failed = [] ∧
    ((upLineProcessEpoch envIdle 7 stLockedC2).db.failed.any
        (fun f => f.epoch = 7)) = true := by
  refine ⟨rfl, ?_⟩
  have hs : gk_sync_epoch_flow envIdle 7 stLockedC2 =
      ({ success := false, reason := some "locked", error := none }, stLockedC2) := by
    rw [gk_sync_epoch_flow, if_neg (by decide), if_pos (by decide)]
  rw [upLineProcessEpoch, if_neg (by decide), hs]
  simp [stLockedC2, DB.empty, logFailedEpoch]

/-- C2 (amended).  A lock conflict makes the sync itself return
`success = false, reason = "locked"` without touching any table or the lock
set — but the forward worker then upserts a failed-epoch row with stage
`"upLine"` for the epoch (created with `retry_count = 0`, or with
`retry_count` incremented when one exists), so a failed-epoch record *is*
written for the lock conflict. -/
theorem sync_locked_skip_and_upline_logs (env : SyncEnv) (E : Nat) (st : SysState)
    (hdone : epochAlreadyDone st.db E = false)
    (hlock : st.locks.contains E = true)
    (hfail : getFailCount st.db E < RETRY_MAX) :
    gk_sync_epoch_flow env E st =
      ({ success := false, reason := some "locked", error := none }, st) ∧
    upLineProcessEpoch env E st =
      { st with db := logFailedEpoch st.db E "locked" "upLine" } ∧
    ((logFailedEpoch st.db E "locked" "upLine").failed.any (fun f => f.epoch = E))
      = true := by
  have hsync : gk_sync_epoch_flow env E st =
      ({ success := false, reason := some "locked", error := none }, st) := by
    rw [gk_sync_epoch_flow, if_neg (by simp [hdone]), if_pos hlock]
  refine ⟨hsync, ?_, ?_⟩
  · rw [upLineProcessEpoch, if_neg (not_le.mpr hfail), hsync]
    simp
  · rw [logFailedEpoch]
    split
    · next hex =>
      rw [List.any_eq_true] at hex ⊢
      obtain ⟨f, hf, hfe⟩ := hex
      exact ⟨_, List.mem_map_of_mem _ hf, by simp_all⟩
    · simp

/-- C2 witness: the amended theorem applied at the concrete locked world. -/
theorem sync_locked_skip_and_upline_logs_witness :
    gk_sync_epoch_flow envIdle 7 stLockedC2 =
      ({ success := false, reason := some "locked", error := none }, stLockedC2) ∧
    upLineProcessEpoch envIdle 7 stLockedC2 =
      { stLockedC2 with db := logFailedEpoch stLockedC2.db 7 "locked" "upLine" } ∧
    ((logFailedEpoch stLockedC2.db 7 "locked" "upLine").failed.any
        (fun f => f.epoch = 7)) = true :=
  sync_locked_skip_and_upline_logs envIdle 7 stLockedC2 (by rfl) (by rfl)
    (by simp [getFailCount, stLockedC2, DB.empty, RETRY_MAX])

/-- C8 counterexample: two distinct fetched Claim events with the same
`(block_number, sender, bet_epoch)` parse to a two-entry claim list whose
entries share the dedup key — PARSE does not deduplicate. -/
theorem parse_claims_no_dedup :
    (parseClaims evDup 10).length = 2 ∧
    ((parseClaims evDup 10).map claimKey).Chain' (fun a b => a = b) := by
  refine ⟨rfl, ?_⟩
  simp [parseClaims, evDup, claimKey]

/-- A claim insert with the `(block_number, wallet_address, bet_epoch)`
conflict rule preserves key-uniqueness of the table. -/
theorem insertClaim_pairwise (tbl : List ClaimRow) (r : ClaimRow)
    (h : tbl.Pairwise fun a b => claimKey a ≠ claimKey b) :
    (insertClaim tbl r).Pairwise fun a b => claimKey a ≠ claimKey b := by
  rw [insertClaim]
  split
  · exact h
  · next hany =>
    rw [List.pairwise_append]
    refine ⟨h, List.pairwise_singleton _ _, ?_⟩
    intro a ha b hb
    rw [List.mem_singleton] at hb
    subst hb
    intro hk
    exact hany (List.any_eq_true.mpr ⟨a, ha, by simp [hk]⟩)

/-- Batch form of `insertClaim_pairwise`. -/
theorem foldl_insertClaim_pairwise (rs : List ClaimRow) (tbl : List ClaimRow)
    (h : tbl.Pairwise fun a b => claimKey a ≠ claimKey b) :
    (rs.foldl insertClaim tbl).Pairwise fun a b => claimKey a ≠ claimKey b := by
  induction rs generalizing tbl with
  | nil => exact h
  | cons r rs ih =>
      rw [List.foldl_cons]
      exact ih _ (insertClaim_pairwise tbl r h)

/-- The write transaction's effect on the `claim` table is exactly the
conflict-absorbing batch insert of the parsed claims. -/
theorem writeDataTransaction_claim (nowSec : Int) (round : ParsedRound)
    (bets : List Bet) (claims : List ClaimRow) (mcs : List MultiClaimRow) (db : DB) :
    (writeDataTransaction nowSec round bets claims mcs db).claim =
      claims.foldl insertClaim db.claim := by
  rw [writeDataTransaction]
  split
  · split
    · rfl
    · rfl
  · split
    · rfl
    · rfl

/-- C8 (amended).  PARSE hands the write transaction one claim entry per
fetched Claim event — no dedup on `(block_number, wallet, bet_epoch)` happens
there; duplicates on that key (between the batch and the table or inside the
batch) are eliminated only by the insert's `ON CONFLICT DO NOTHING`, so the
`claim` table stays key-unique. -/
theorem claims_dedup_happens_at_insert (ev : Events) (epoch : Nat)
    (nowSec : Int) (round : ParsedRound) (bets : List Bet)
    (mcs : List MultiClaimRow) (db : DB)
    (h : db.claim.Pairwise fun a b => claimKey a ≠ claimKey b) :
    (parseClaims ev epoch).length = ev.claim.length ∧
    ((writeDataTransaction nowSec round bets (parseClaims ev epoch) mcs db).claim).Pairwise
      (fun a b => claimKey a ≠ claimKey b) := by
  constructor
  · exact List.length_map _ _
  · rw [writeDataTransaction_claim]
    exact foldl_insertClaim_pairwise _ _ h

/-- C8 witness: the amended theorem at the duplicate-key event pair over the
empty store. -/
theorem claims_dedup_happens_at_insert_witness :
    (parseClaims evDup 10).length = evDup.claim.length ∧
    ((writeDataTransaction 0 (parseRoundData rdHappy) [] (parseClaims evDup 10)
        [] DB.empty).claim).Pairwise (fun a b => claimKey a ≠ claimKey b) :=
  claims_dedup_happens_at_insert evDup 10 0 (parseRoundData rdHappy) [] [] DB.empty
    (by simp [DB.empty])

/-- `find?` over `range'` returns the smallest element of the window
satisfying the predicate. -/
theorem find?_range'_eq_some (p : Nat → Bool) :
    ∀ (n a m : Nat), a ≤ m → m < a + n → p m = true →
      (∀ j, a ≤ j → j < m → p j = false) →
      (List.range' a n).find? p = some m := by
  intro n
  induction n with
  | zero =>
      intro a m h1 h2 _ _
      exact absurd h2 (by omega)
  | succ n ih =>
      intro a m h1 h2 h3 h4
      rw [List.range'_succ]
      by_cases hm : m = a
      · subst hm
        simp [List.find?_cons, h3]
      · have hpa : p a = false := h4 a le_rfl (by omega)
        rw [List.find?_cons, hpa]
        exact ih (a + 1) m (by omega) (by omega) h3 (fun j hj1 hj2 => h4 j (by omega) hj2)

/-- The fold of `max` lands on its seed or on a list element. -/
theorem foldl_max_mem (xs : List Int) :
    ∀ a : Int, xs.foldl max a = a ∨ xs.foldl max a ∈ xs := by
  induction xs with
  | nil => exact fun a => Or.inl rfl
  | cons y ys ih =>
      intro a
      rw [List.foldl_cons]
      rcases ih (max a y) with h | h
      · rcases max_choice a y with hm | hm
        · exact Or.inl (h.trans hm)
        · exact Or.inr (by rw [h, hm]; exact List.mem_cons_self _ _)
      · exact Or.inr (List.mem_cons_of_mem _ h)

/-- The fold of `max` bounds its seed and every list element. -/
theorem le_foldl_max (xs : List Int) :
    ∀ a : Int, a ≤ xs.foldl max a ∧ ∀ d ∈ xs, d ≤ xs.foldl max a := by
  induction xs with
  | nil => exact fun a => ⟨le_refl a, by simp⟩
  | cons y ys ih =>
      intro a
      obtain ⟨h1, h2⟩ := ih (max a y)
      rw [List.foldl_cons]
      refine ⟨le_trans (le_max_left a y) h1, ?_⟩
      intro d hd
      rcases List.mem_cons.mp hd with rfl | hd
      · exact le_trans (le_max_right a d) h1
      · exact h2 d hd

/-- `Math.max(...diffs)` of a non-empty list is a member and an upper bound. -/
theorem maxListInt_spec (l : List Int) (h : l ≠ []) :
    maxListInt l ∈ l ∧ ∀ d ∈ l, d ≤ maxListInt l := by
  match l with
  | [] => exact absurd rfl h
  | x :: xs =>
      rw [maxListInt]
      constructor
      · rcases foldl_max_mem xs x with h1 | h1
        · rw [h1]; exact List.mem_cons_self _ _
        · exact List.mem_cons_of_mem _ h1
      · intro d hd
        obtain ⟨ha, hb⟩ := le_foldl_max xs x
        rcases List.mem_cons.mp hd with rfl | hd
        · exact ha
        · exact hb d hd

/-- C6.  For a target epoch `E` whose forward anchor is `E + k`
(`1 ≤ k ≤ 5`, more than 5 stored bets, and no smaller epoch of the window
qualifies), the estimator returns exactly
`[min_block − blocks_per_epoch·k − 50, min_block + 50]`, where
`blocks_per_epoch` is 410 when no consecutive qualifying pair lies in the
10-epoch look-behind window and otherwise the maximum of the
`last_block(e) − last_block(e−1)` differences over those pairs. -/
theorem block_range_forward_anchor (tbl : List HisbetRow) (E k : Nat)
    (hk1 : 1 ≤ k) (hk5 : k ≤ 5)
    (hq : epochQualifies tbl (E + k) = true)
    (hmin : ∀ j, 1 ≤ j → j < k → epochQualifies tbl (E + j) = false) :
    getBlockRangeForEpoch tbl E =
      some ((minBlockOf tbl (E + k) : Int) - getBlocksPerEpoch tbl (E + k) * k - 50,
            (minBlockOf tbl (E + k) : Int) + 50) ∧
    (blockDiffs tbl (E + k) = [] → getBlocksPerEpoch tbl (E + k) = 410) ∧
    (blockDiffs tbl (E + k) ≠ [] →
      getBlocksPerEpoch tbl (E + k) ∈ blockDiffs tbl (E + k) ∧
      ∀ d ∈ blockDiffs tbl (E + k), d ≤ getBlocksPerEpoch tbl (E + k)) := by
  have hanchor : forwardAnchor? tbl E = some (E + k) := by
    rw [forwardAnchor?]
    refine find?_range'_eq_some _ 5 (E + 1) (E + k) (by omega) (by omega) hq ?_
    intro j hj1 hj2
    have hj := hmin (j - E) (by omega) (by omega)
    rwa [show E + (j - E) = j by omega] at hj
  refine ⟨?_, ?_, ?_⟩
  · rw [getBlockRangeForEpoch, hanchor]
    have hgap : ((E + k : Nat) : Int) - (E : Int) = (k : Int) := by push_cast; ring
    show some ((minBlockOf tbl (E + k) : Int) -
        getBlocksPerEpoch tbl (E + k) * (((E + k : Nat) : Int) - (E : Int)) - 50,
        (minBlockOf tbl (E + k) : Int) + 50) = _
    rw [hgap]
  · intro hnil
    rw [getBlocksPerEpoch, hnil]
  · intro hne
    have hspec := maxListInt_spec (blockDiffs tbl (E + k)) hne
    have heq : getBlocksPerEpoch tbl (E + k) = maxListInt (blockDiffs tbl (E + k)) := by
      rw [getBlocksPerEpoch]
      split
      · next hcontra => exact absurd hcontra hne
      · rfl
    rw [heq]
    exact hspec

/-- C6 witness: epoch 10 anchored by the six bets of epoch 11 (no qualifying
pair, so `blocks_per_epoch = 410`). -/
theorem block_range_forward_anchor_witness :
    getBlockRangeForEpoch tblC6 10 =
      some ((minBlockOf tblC6 11 : Int) - getBlocksPerEpoch tblC6 11 * 1 - 50,
            (minBlockOf tblC6 11 : Int) + 50) ∧
    (blockDiffs tblC6 11 = [] → getBlocksPerEpoch tblC6 11 = 410) ∧
    (blockDiffs tblC6 11 ≠ [] →
      getBlocksPerEpoch tblC6 11 ∈ blockDiffs tblC6 11 ∧
      ∀ d ∈ blockDiffs tblC6 11, d ≤ getBlocksPerEpoch tblC6 11) :=
  block_range_forward_anchor tblC6 10 1 le_rfl (by omega) (by decide)
    (fun j hj1 hj2 => absurd (lt_of_le_of_lt hj1 hj2) (lt_irrefl 1))

/-- C5 counterexample: three flat DOWN rounds give a tied score
`(up, down) = (2, 2)` and the current flow is split exactly 50/50 — the claim
(`up_ratio ≥ 0.5 → UP` on a tie) demands UP, but the code's strict `> 0.5`
tie-break returns DOWN. -/
theorem momentum_tie_at_half_returns_down :
    calculateMomentumScores histTie curTie = (2, 2) ∧
    curTie.up_bet_amount / curTie.total_bet_amount = 1 / 2 ∧
    calculateMomentumPrediction histTie curTie = Direction.DOWN := by
  have hs : calculateMomentumScores histTie curTie = (2, 2) := by
    rw [calculateMomentumScores]
    simp [histTie, curTie, calcVarianceQ, List.headI, abs_neg, abs_of_nonneg]
    all_goals norm_num [abs_of_nonneg]
  refine ⟨hs, by norm_num [curTie], ?_⟩
  rw [calculateMomentumPrediction, hs]
  norm_num [curTie]

/-- C5 (amended).  The momentum decision returns UP when
`up_score − down_score > 0`, DOWN when `< 0`, and on a tied score returns UP
exactly when `up_ratio > 0.5` — a flow share of exactly 0.5 breaks the tie to
DOWN; the live aggregator's fewer-than-3-rounds fallback does use the
non-strict `up_ratio ≥ 0.5 → UP`. -/
theorem momentum_decision_strict_tiebreak (hist : List HistRow) (cur : CurRound)
    (rl : CurRound) (r : ℚ) :
    ((calculateMomentumScores hist cur).2 < (calculateMomentumScores hist cur).1 →
      calculateMomentumPrediction hist cur = Direction.UP) ∧
    ((calculateMomentumScores hist cur).1 < (calculateMomentumScores hist cur).2 →
      calculateMomentumPrediction hist cur = Direction.DOWN) ∧
    ((calculateMomentumScores hist cur).1 = (calculateMomentumScores hist cur).2 →
      (calculateMomentumPrediction hist cur = Direction.UP ↔
        cur.up_bet_amount / cur.total_bet_amount > 0.5)) ∧
    (hist.length < 3 →
      (livePrediction hist rl r = Direction.UP ↔ r ≥ 0.5)) := by
  refine ⟨?_, ?_, ?_, ?_⟩
  · intro h
    rw [calculateMomentumPrediction, if_neg (by omega), if_pos (by omega)]
  · intro h
    rw [calculateMomentumPrediction, if_neg (by omega), if_neg (by omega)]
  · intro h
    rw [calculateMomentumPrediction, if_pos (by omega)]
    split_ifs with hr
    · simp [hr]
    · simp [hr]
  · intro h
    rw [livePrediction, if_neg (by omega)]
    split_ifs with hr
    · simp [hr]
    · simp [hr]

/-- C5 witness: the amended tie-break applied at the tied 50/50 input. -/
theorem momentum_decision_strict_tiebreak_witness :
    calculateMomentumPrediction histTie curTie = Direction.DOWN := by
  have h := momentum_decision_strict_tiebreak histTie curTie curTie (1 / 2)
  have htie : (calculateMomentumScores histTie curTie).1 =
      (calculateMomentumScores histTie curTie).2 := by
    rw [calculateMomentumScores]
    simp [histTie, curTie, calcVarianceQ, List.headI, abs_neg, abs_of_nonneg]
    all_goals norm_num [abs_of_nonneg]
  have hiff := h.2.2.1 htie
  cases hc : calculateMomentumPrediction histTie curTie
  · exact absurd (hiff.mp hc) (by norm_num [curTie])
  · rfl

/-- Every record the aggregator publishes carries exactly the `final` flag of
the call that produced it — bet-triggered publishes (`final = false`) can
never emit a final revision. -/
theorem maybePublish_final_flag (st : LiveAgg) (now : Int) (force fin : Bool)
    (p : Pub) (hp : (maybePublishLivePrediction st now force fin).1 = some p) :
    p.final = fin := by
  rw [maybePublishLivePrediction] at hp
  rcases hE : st.epoch with _ | ep
  · rw [hE] at hp
    exact Option.noConfusion hp
  · rw [hE] at hp
    dsimp only at hp
    rw [maybePublishCore] at hp
    split at hp
    · exact Option.noConfusion hp
    · split at hp
      · exact Option.noConfusion hp
      · split at hp
        · exact Option.noConfusion hp
        · injection hp with h
          rw [← h]
          rfl

/-- A forced call (the final-tick timer path) with positive aggregated volume
always publishes, tagged with the requested flag and the current epoch. -/
theorem maybePublish_force_pos_publishes (st : LiveAgg) (now : Int) (e : Nat)
    (fin : Bool) (hep : st.epoch = some e) (hpos : 0 < st.total) :
    ∃ p, (maybePublishLivePrediction st now true fin).1 = some p ∧
      p.epoch = e ∧ p.final = fin := by
  rw [maybePublishLivePrediction, hep]
  dsimp only
  rw [maybePublishCore, if_neg (not_le.mpr hpos)]
  rw [if_neg (show ¬(¬(true : Bool) = true ∧ now - st.lastPublishTs < publishIntervalMs)
        from by simp)]
  simp only [Bool.not_true, Bool.false_and]
  rw [if_neg (show ¬((false : Bool) = true) from by simp)]
  exact ⟨pubOf st now fin e, rfl, rfl, rfl⟩

/-- C7 counterexample: with zero intra-round bets aggregated the final-tick
timer fire (`force = true, final = true`) publishes nothing — no `final =
true` prediction is emitted for that epoch, contradicting the claim's
"including zero" case. -/
theorem final_timer_zero_volume_publishes_nothing :
    aggZero.total = 0 ∧
    (maybePublishLivePrediction aggZero 1000 true true).1 = none := by
  refine ⟨rfl, ?_⟩
  rw [maybePublishLivePrediction]
  rw [show aggZero.epoch = some 1 from rfl]
  dsimp only
  rw [maybePublishCore, if_pos (le_of_eq (show aggZero.total = 0 from rfl))]

/-- C7 (amended).  When the final-tick timer fires with at least one
aggregated bet (`total > 0`) it publishes exactly one record, tagged
`final = true`, for the current epoch; bet-triggered publications always carry
`final = false`, so later bets of the same epoch never produce another
`final = true` revision; and whenever the scheduled delay is at least the
500 ms threshold, the timer fires exactly at `lock_time − FINAL_ADVANCE_MS`.
With zero aggregated volume nothing is published at all. -/
theorem final_tick_publish_semantics (st : LiveAgg) (now : Int) (e : Nat)
    (hep : st.epoch = some e) (hpos : 0 < st.total) :
    (∃ p, (maybePublishLivePrediction st now true true).1 = some p ∧
        p.epoch = e ∧ p.final = true) ∧
    (∀ (st2 : LiveAgg) (t : Int) (p : Pub),
        (maybePublishLivePrediction st2 t false false).1 = some p →
          p.final = false) ∧
    (∀ lockMs adv : Int, 500 ≤ scheduleFinalDelay lockMs now adv →
        now + scheduleFinalDelay lockMs now adv = lockMs - adv) := by
  refine ⟨maybePublish_force_pos_publishes st now e true hep hpos, ?_, ?_⟩
  · intro st2 t p hp
    exact maybePublish_final_flag st2 t false false p hp
  · intro lockMs adv h
    rcases le_total (lockMs - now - adv) 0 with hle | hle
    · rw [scheduleFinalDelay, max_eq_left hle] at h
      exact absurd h (by norm_num)
    · rw [scheduleFinalDelay, max_eq_right hle]
      ring

/-- C7 witness: the amended theorem at an epoch with one aggregated bet. -/
theorem final_tick_publish_semantics_witness :
    (∃ p, (maybePublishLivePrediction aggOne 0 true true).1 = some p ∧
        p.epoch = 2 ∧ p.final = true) ∧
    (∀ (st2 : LiveAgg) (t : Int) (p : Pub),
        (maybePublishLivePrediction st2 t false false).1 = some p →
          p.final = false) ∧
    (∀ lockMs adv : Int, 500 ≤ scheduleFinalDelay lockMs 0 adv →
        0 + scheduleFinalDelay lockMs 0 adv = lockMs - adv) :=
  final_tick_publish_semantics aggOne 0 2 rfl (by norm_num [aggOne])
